import Mathlib

/-!
Verification of the student-report-generation pipeline
(`university/kent/Student_Report_Generator`, with its near-identical
variants `Moodle_Batch_Upload.py` and `marking_sheets_generator`).

The Python sources are shallowly embedded below.  Tables are lists of
rows, a row is an association list from column name to a scalar value
(string, number, or the missing-value marker modelling pandas NaN /
Python None).  Strings are modelled over `List Char`; Python string
operations used by the scripts (`str.lower`, `str.replace`,
`str.split(" ")`, `str.endswith`, `os.path.splitext`, `int(...)`) are
given explicit executable models covering the ASCII data domain these
scripts operate on.
-/

deriving instance DecidableEq for Except

namespace SRG

/-- A scalar cell value: a string, a number, or the missing marker
(pandas NaN / Python None). -/
inductive Value where
  | str (s : String)
  | num (n : Int)
  | nan
deriving DecidableEq, Repr

/-- A row: association list from column name to value (a pandas row). -/
abbrev Row := List (String × Value)

/-- `row.get(key)` with no default: the first value stored under `key`,
`none` when the column is absent. -/
def rowGet (r : Row) (k : String) : Option Value :=
  (r.find? (fun p => p.fst == k)).map (fun p => p.snd)

/-- `pd.isna` on an optional cell value: true for an absent column
(Python `None`) and for the NaN marker. -/
def pyIsna (v : Option Value) : Bool :=
  match v with
  | none => true
  | some Value.nan => true
  | some _ => false

/-- Python truthiness test `not v` used on key-column values:
the empty string and the number 0 are falsy. -/
def pyFalsy (v : Value) : Bool :=
  match v with
  | Value.str s => s == ""
  | Value.num n => n == 0
  | Value.nan => false

/-- Column assignment `df[k] = v` restricted to one row: overwrite the
value under `k` in place when the column exists, append it otherwise. -/
def setCol (k : String) (v : Value) (r : Row) : Row :=
  if r.any (fun p => p.fst == k) then
    r.map (fun p => if p.fst == k then (p.fst, v) else p)
  else r ++ [(k, v)]

/-- `df.drop(columns=ks)` restricted to one row. -/
def dropCols (ks : List String) (r : Row) : Row :=
  r.filter (fun p => !(ks.contains p.fst))

/-- ASCII lower-casing of one character, the relevant fragment of
Python `str.lower` for the login/email data these scripts process. -/
def lowerChar (c : Char) : Char :=
  if h : 65 ≤ c.toNat ∧ c.toNat ≤ 90 then
    Char.ofNatAux (c.toNat + 32) (Or.inl (by omega))
  else c

/-- ASCII upper-casing of one character (Python `str.upper` on one
character, as used by `excel_cell_ref_to_indices`). -/
def upperChar (c : Char) : Char :=
  if h : 97 ≤ c.toNat ∧ c.toNat ≤ 122 then
    Char.ofNatAux (c.toNat - 32) (Or.inl (by omega))
  else c

/-- Python `s.lower()` over the ASCII fragment. -/
def pyLower (s : String) : String :=
  String.mk (s.toList.map lowerChar)

/-- Scanner for `removeAll`, structurally recursive on a fuel bounding
the remaining length (so that it evaluates by kernel reduction). -/
def removeAllFuel (pat : List Char) : Nat → List Char → List Char
  | _, [] => []
  | 0, s => s
  | Nat.succ fuel, c :: rest =>
    if pat ≠ [] ∧ pat.isPrefixOf (c :: rest) then
      removeAllFuel pat fuel ((c :: rest).drop pat.length)
    else
      c :: removeAllFuel pat fuel rest

/-- Python `s.replace(pat, "", ...)` with a literal (non-regex) pattern:
remove every occurrence of `pat`, scanning left to right without
overlap.  This is the effect of the scripts'
`str.replace("@kent.ac.uk", "", regex=False)`. -/
def removeAll (pat s : List Char) : List Char :=
  removeAllFuel pat s.length s

/-- Does `pat` occur as a contiguous sublist of `s`? -/
def hasOccurrence (pat : List Char) : List Char → Bool
  | [] => pat.isEmpty
  | c :: rest => pat.isPrefixOf (c :: rest) || hasOccurrence pat rest

/-- The institutional domain suffix stripped from reference e-mails. -/
def kentSuffix : List Char := "@kent.ac.uk".toList

/-- Reference-table login normalization, from
`load_reference_worksheet` / `load_moodle_worksheet`:
`df["Email address"].str.replace("@kent.ac.uk", "", regex=False)`
followed by `.str.lower()` — strip the literal suffix FIRST, then
lower-case. -/
def normalize_login (s : String) : String :=
  pyLower (String.mk (removeAll kentSuffix s.toList))

/-- Python `s.split(sep)` with a one-character separator: consecutive
separators yield empty fields, `"".split(sep) == [""]`. -/
def splitOnChar (sep : Char) : List Char → List (List Char)
  | [] => [[]]
  | c :: rest =>
    if c = sep then [] :: splitOnChar sep rest
    else
      match splitOnChar sep rest with
      | t :: ts => (c :: t) :: ts
      | [] => [[c]]

/-- Python `s.endswith(suffix)`. -/
def pyEndsWith (suffix s : String) : Bool :=
  suffix.toList.isSuffixOf s.toList

/-- The extension part of Python `os.path.splitext(name)` for a bare
file name (no directory separators, which the configs' paths put only
before the base name): everything from the last dot on, except that
leading dots of the name never start an extension. -/
def pySplitextExt (s : List Char) : List Char :=
  let lead := (s.takeWhile (fun c => c = '.')).length
  let body := s.drop lead
  if body.any (fun c => c = '.') then
    '.' :: (s.reverse.takeWhile (fun c => c ≠ '.')).reverse
  else []

/-- `os.path.splitext(filename)[-1].lower()` as computed by
`load_dataframe`. -/
def fileExtension (filename : String) : String :=
  pyLower (String.mk (pySplitextExt filename.toList))

/-- The numeric value of a run of decimal digits. -/
def decimalValue (ds : List Char) : Nat :=
  ds.foldl (fun acc d => 10 * acc + (d.toNat - 48)) 0

/-- Python `int(s)` over the scripts' ASCII data domain: optional
surrounding ASCII whitespace, an optional sign, then a nonempty run of
decimal digits; anything else raises `ValueError` (here `none`). -/
def pyIntParse (s : List Char) : Option Int :=
  let t := ((s.dropWhile Char.isWhitespace).reverse.dropWhile Char.isWhitespace).reverse
  let ds : List Char :=
    match t with
    | '+' :: rest => rest
    | '-' :: rest => rest
    | rest => rest
  if ds ≠ [] ∧ ds.all Char.isDigit then
    let n : Int := Int.ofNat (decimalValue ds)
    some (if t.head? = some '-' then -n else n)
  else none

/-- `os.path.join(folder, name)` for a folder path without a trailing
separator, the shape the configs use. -/
def joinPath (folder name : String) : String :=
  folder ++ "/" ++ name

/-- A JSON configuration value as far as `validate_row_limits` inspects
it: an integer, `null`/absent (Python `None`), or any other value
(string, float, ...). -/
inductive ConfigVal where
  | intVal (i : Int)
  | null
  | other
deriving DecidableEq, Repr

/-- `validate_row_limits(start_row, end_row, total_rows)` from
`Reports_Generator.py` / `marking_automation.py` (the same block runs
at module level in `reports_generater.py`): clamp `start_row` to 1 when
it is not a positive integer or exceeds the table length, clamp a
non-`None` `end_row` to the table length when it is not an integer or
is below the adjusted start, otherwise cap it at the table length.
Returns the 0-based start index and the (exclusive) end bound for
`iloc`, `none` meaning "to the end". -/
def validate_row_limits (start_row end_row : ConfigVal) (total_rows : Nat) :
    Int × Option Int :=
  let s : Int :=
    match start_row with
    | ConfigVal.intVal i => if i < 1 then 1 else if i > total_rows then 1 else i
    | _ => 1
  let e : Option Int :=
    match end_row with
    | ConfigVal.null => none
    | ConfigVal.intVal j =>
      if j < s then some total_rows else some (min j (total_rows : Int))
    | ConfigVal.other => some total_rows
  (s - 1, e)

/-- `df.iloc[a:b]` for the nonnegative bounds `validate_row_limits`
produces (`none` = slice to the end); Python's negative-index slicing
never arises there and is not modelled. -/
def pySlice (a : Int) (b : Option Int) (rows : List α) : List α :=
  match b with
  | none => rows.drop a.toNat
  | some bb => (rows.take bb.toNat).drop a.toNat

/-- Which parser a table file is handed to. -/
inductive TableFormat where
  | csv
  | excel
deriving DecidableEq, Repr

/-- The extension dispatch of `load_dataframe` (`marking_utils.py` /
`Reports_Generator.py`): `.csv` goes to the CSV reader, `.xls`/`.xlsx`
to the Excel reader, anything else raises
`ValueError(f"Unsupported file format: ...")`.  The actual file
reading and header trimming are the external pandas collaborator. -/
def load_dataframe_format (filename : String) : Except String TableFormat :=
  let file_extension := fileExtension filename
  if file_extension = ".csv" then Except.ok TableFormat.csv
  else if file_extension = ".xls" ∨ file_extension = ".xlsx" then
    Except.ok TableFormat.excel
  else Except.error ("Unsupported file format: " ++ file_extension)

/-- The `.str.lower()` accessor on one cell: lower-case a string,
anything else becomes NaN (the pandas `.str` accessor's behavior on
non-string elements).  Used on the marks table's `Login` column. -/
def strAccessorLower (v : Value) : Value :=
  match v with
  | Value.str s => Value.str (pyLower s)
  | _ => Value.nan

/-- The reference table's Login derivation on one cell:
`.str.replace("@kent.ac.uk", "", regex=False)` then `.str.lower()`;
non-string cells become NaN. -/
def strAccessorNormalize (v : Value) : Value :=
  match v with
  | Value.str s => Value.str (normalize_login s)
  | _ => Value.nan

/-- `load_marking_sheet`'s normalization step on one row:
`df_marks["Login"] = df_marks["Login"].str.lower()`. -/
def marksNormalizeRow (r : Row) : Row :=
  setCol "Login" (strAccessorLower ((rowGet r "Login").getD Value.nan)) r

/-- `load_reference_worksheet`'s normalization step on one row:
`df_reference["Login"]` derived from `"Email address"`. -/
def refNormalizeRow (r : Row) : Row :=
  setCol "Login" (strAccessorNormalize ((rowGet r "Email address").getD Value.nan)) r

/-- The `Submission_ID` lambda from `validate_reference_worksheet` /
`validate_moodle_worksheet` / `preprocess_data`:
`str(x).split(" ")[1] if isinstance(x, str) and " " in x else ""` —
note the split is on a single space character. -/
def submission_ID (x : Value) : String :=
  match x with
  | Value.str s =>
    if s.toList.contains ' ' then
      String.mk (((splitOnChar ' ' s.toList).get? 1).getD [])
    else ""
  | _ => ""

/-- Element-wise `+` on object-dtype cells: string concatenation when
both sides are strings; with a missing component the model yields the
missing marker (pandas would raise there — such rows carry malformed
source data and are outside every claim). -/
def valueConcat (a b : Value) : Value :=
  match a, b with
  | Value.str x, Value.str y => Value.str (x ++ y)
  | _, _ => Value.nan

/-- The per-row column derivations of `validate_reference_worksheet`:
add `Submission_ID` from `Identifier`, then `feedback_filename` as
`Full name + "_" + Submission_ID + sub_str + Login` with
`sub_str` the fixed literal infix as in the source. -/
def augmentRow (module_name assignment_name : String) (r : Row) : Row :=
  let subId := submission_ID ((rowGet r "Identifier").getD Value.nan)
  let r1 := setCol "Submission_ID" (Value.str subId) r
  let sub_str :=
    "_assignsubmission_file_" ++ module_name ++ "_" ++ assignment_name ++
      "_Feedback - "
  let feedback :=
    valueConcat
      (valueConcat ((rowGet r1 "Full name").getD Value.nan)
        (Value.str ("_" ++ subId ++ sub_str)))
      ((rowGet r1 "Login").getD Value.nan)
  setCol "feedback_filename" feedback r1

/-- The `Login` column of a table. -/
def loginColumn (t : List Row) : List Value :=
  t.map (fun r => (rowGet r "Login").getD Value.nan)

/-- Pandas boolean indexing `df[mask]`: keep the rows whose mask entry
is true, in order. -/
def booleanIndex (mask : List Bool) (rows : List α) : List α :=
  (mask.zip rows).foldr (fun p acc => if p.fst then p.snd :: acc else acc) []

/-- `validate_reference_worksheet(df_ref, df_marks, ...)` from
`Reports_Generator.py` (identical to `validate_moodle_worksheet` in
`marking_automation.py`): keep the reference rows whose `Login` is in
the marks table's `Login` column
(`df_ref[df_ref["Login"].isin(df_marks["Login"])]`), then derive
`Submission_ID` and `feedback_filename` on the kept rows.  The
missing-students report is a print only. -/
def validate_reference_worksheet (df_ref df_marks : List Row)
    (module_name assignment_name : String) : List Row :=
  let logins := loginColumn df_marks
  let mask := df_ref.map (fun r => logins.contains ((rowGet r "Login").getD Value.nan))
  let kept := booleanIndex mask df_ref
  kept.map (augmentRow module_name assignment_name)

/-- `excel_cell_ref_to_indices` (`marking_utils.py`, =
`excel_ref_to_index` in `Reports_Generator.py`):
`(int(ref[1:]) - 1, ord(ref[0].upper()) - ord('A'))`; `none` models the
`ValueError` raised by `int(...)` on a non-integer tail (and the
`IndexError` on an empty reference). -/
def excel_cell_ref_to_indices (ref : String) : Option (Int × Int) :=
  match ref.toList with
  | [] => none
  | c :: rest =>
    match pyIntParse rest with
    | some n => some (n - 1, Int.ofNat (upperChar c).toNat - 65)
    | none => none

/-- What gets written into an output document: cell writes into the
first table of a Word template, or cell writes into the active sheet of
an Excel template. -/
inductive DocContent where
  | word (cells : List ((Int × Int) × Value))
  | excel (cells : List (String × Value))
deriving DecidableEq, Repr

/-- A saved output document: its path and its written cells. -/
structure SavedDoc where
  path : String
  content : DocContent
deriving DecidableEq, Repr

/-- One mapped value: `row.get(column_name, "N/A")`, with NaN written
as the empty string. -/
def cellValue (row : Row) (column_name : String) : Value :=
  let value := (rowGet row column_name).getD (Value.str "N/A")
  if value = Value.nan then Value.str "" else value

/-- `write_to_excel_file`'s cell writes: one write per mapping pair,
addressed by the raw cell-reference string. -/
def write_to_excel_file (mapping : List (String × String)) (row : Row) :
    List (String × Value) :=
  mapping.map (fun p => (p.snd, cellValue row p.fst))

/-- `write_to_word_file`'s cell writes: each mapping target is parsed
by `excel_cell_ref_to_indices`; an unparseable reference raises
(`ValueError` from `int(...)`). -/
def write_to_word_file (mapping : List (String × String)) (row : Row) :
    Except String (List ((Int × Int) × Value)) :=
  match mapping with
  | [] => Except.ok []
  | (column_name, cell_reference) :: rest =>
    match excel_cell_ref_to_indices cell_reference with
    | some ij =>
      match write_to_word_file rest row with
      | Except.ok ws => Except.ok ((ij, cellValue row column_name) :: ws)
      | Except.error e => Except.error e
    | none => Except.error "ValueError: invalid cell reference"

/-- The result of a report-generation run: the documents saved, in row
order, and the counter the run reports. -/
structure EmitResult where
  docs : List SavedDoc
  count : Nat
deriving DecidableEq, Repr

/-- The per-row skip test of the generation loop:
`pd.isna(student_key) or not student_key` with
`student_key = row.get(key_column)`. -/
def skipRow (key_column : String) (row : Row) : Bool :=
  pyIsna (rowGet row key_column) ||
    pyFalsy ((rowGet row key_column).getD Value.nan)

/-- A row the loop does not skip: its key-column value is present and
truthy (non-empty, non-NaN). -/
def validRowKey (key_column : String) (row : Row) : Bool :=
  !(skipRow key_column row)

/-- Does the row carry a string `feedback_filename` (so that
`feedback_filename + ext` does not raise)? -/
def hasStrFeedback (row : Row) : Bool :=
  match rowGet row "feedback_filename" with
  | some (Value.str _) => true
  | _ => false

/-- The row's derived feedback filename (defaulting to `""` where the
code would raise instead). -/
def feedbackString (row : Row) : String :=
  match rowGet row "feedback_filename" with
  | some (Value.str s) => s
  | _ => ""

/-- Did a fallible computation succeed? -/
def isOkE (e : Except ε α) : Bool :=
  match e with
  | Except.ok _ => true
  | Except.error _ => false

/-- Do all of the mapping's target cell references parse? -/
def mappingRefsParse (mapping : List (String × String)) : Bool :=
  mapping.all (fun p => (excel_cell_ref_to_indices p.snd).isSome)

/-- `do_generate_reports` (`marking_automation.py`; the same loop body
is inlined in `generate_reports` of `Reports_Generator.py`): per row,
skip when the key column is missing/NaN/falsy; otherwise build
`output_filename = os.path.join(output_folder, feedback_filename + ext)`
(raising `TypeError` when `feedback_filename` is not a string), then
dispatch on the template extension — `.docx` and `.xlsx` save one
document, any other extension prints "Unsupported Template file" and
saves nothing; in all three dispatch branches `generated_count` is
incremented. -/
def do_generate_reports (rows : List Row) (ext key_column : String)
    (mapping : List (String × String)) (output_folder : String) :
    Except String EmitResult :=
  match rows with
  | [] => Except.ok ⟨[], 0⟩
  | row :: rest =>
    if skipRow key_column row then
      do_generate_reports rest ext key_column mapping output_folder
    else
      match rowGet row "feedback_filename" with
      | some (Value.str feedback_filename) =>
        let output_filename := joinPath output_folder (feedback_filename ++ ext)
        if ext = ".docx" then
          match write_to_word_file mapping row with
          | Except.ok cells =>
            match do_generate_reports rest ext key_column mapping output_folder with
            | Except.ok r =>
              Except.ok ⟨⟨output_filename, DocContent.word cells⟩ :: r.docs, r.count + 1⟩
            | Except.error e => Except.error e
          | Except.error e => Except.error e
        else if ext = ".xlsx" then
          match do_generate_reports rest ext key_column mapping output_folder with
          | Except.ok r =>
            Except.ok
              ⟨⟨output_filename, DocContent.excel (write_to_excel_file mapping row)⟩ ::
                r.docs, r.count + 1⟩
          | Except.error e => Except.error e
        else
          match do_generate_reports rest ext key_column mapping output_folder with
          | Except.ok r => Except.ok ⟨r.docs, r.count + 1⟩
          | Except.error e => Except.error e
      | some _ => Except.error "TypeError: can only concatenate str to str"
      | none => Except.error "TypeError: can only concatenate str to str"

/-- `generate_reports`: compute the template extension with
`os.path.splitext` (no lower-casing here), clamp the row range, slice
the marks table with `iloc`, and run the per-row loop.  Config-dict
access and folder creation are the external shell. -/
def generate_reports (df_marks : List Row) (template_file : String)
    (start_row end_row : ConfigVal) (key_column : String)
    (mapping : List (String × String)) (output_folder : String) :
    Except String EmitResult :=
  let ext := String.mk (pySplitextExt template_file.toList)
  let p := validate_row_limits start_row end_row df_marks.length
  do_generate_reports (pySlice p.fst p.snd df_marks) ext key_column mapping
    output_folder

/-- Serialization format of the updated reference export. -/
inductive FileFormat where
  | csv
  | excel
deriving DecidableEq, Repr

/-- The grade lookup
`df_reference["Login"].map(df_marking.set_index("Login")["Grade"])` on
one login: the grade of the first marks row with that login, NaN when
absent (the pipeline assumes marks logins are unique; duplicates would
make pandas raise — the spec's known latent risk). -/
def gradeLookup (df_marks : List Row) (login : Value) : Value :=
  match df_marks.find? (fun r => (rowGet r "Login").getD Value.nan == login) with
  | some r => (rowGet r "Grade").getD Value.nan
  | none => Value.nan

/-- `update_reference_file` (`Reports_Generator.py`, =
`update_moodle_file` in `marking_automation.py`): set
`Marking workflow state` to the configured string, set `Grade` by login
lookup in the marks table, drop the working columns, and write with
`df_reference.to_csv(output_file, index=False)` — the `to_excel` call
is commented out in the source, so the output format is always CSV,
whatever `output_file`'s extension. -/
def update_reference_file (df_marks df_reference : List Row)
    (marking_workflow_state : String) (output_file : String) :
    List Row × FileFormat :=
  let updated := df_reference.map (fun r =>
    let r1 := setCol "Marking workflow state" (Value.str marking_workflow_state) r
    let r2 := setCol "Grade" (gradeLookup df_marks ((rowGet r1 "Login").getD Value.nan)) r1
    dropCols ["Login", "Submission_ID", "feedback_filename"] r2)
  (updated, FileFormat.csv)

/-- Modelled from the spec: "serializes the remaining columns to a
delimited-text or spreadsheet file (format dictated by target path
extension)" — the serialization format the spec says the target path's
extension dictates. -/
def formatDictatedByExtension (path : String) : FileFormat :=
  if fileExtension path = ".xls" ∨ fileExtension path = ".xlsx" then
    FileFormat.excel
  else FileFormat.csv

/-- `clean_output_folder` (`marking_utils.py` /
`Reports_Generator.py`): walk the folder listing and delete every file
whose name ends in the literal `".xlsx"`.  Returns (removed files,
remaining files). -/
def clean_output_folder (files : List String) : List String × List String :=
  match files with
  | [] => ([], [])
  | f :: fs =>
    let r := clean_output_folder fs
    if pyEndsWith ".xlsx" f then (f :: r.fst, r.snd) else (r.fst, f :: r.snd)

/-- The row predicate of the reconciler's boolean mask:
`df_ref["Login"].isin(df_marks["Login"])` at one row. -/
def reconKeep (df_marks : List Row) (r : Row) : Bool :=
  (loginColumn df_marks).contains ((rowGet r "Login").getD Value.nan)

/-- Modelled from the spec (claim C4's wording): the effective 1-based
start row after clamping — a start that is not a positive integer or
exceeds the table length resets to 1, otherwise it is kept. -/
def claimedEffStart (s : ConfigVal) (n : Nat) : Nat :=
  match s with
  | ConfigVal.intVal i => if 1 ≤ i ∧ i ≤ (n : Int) then i.toNat else 1
  | _ => 1

/-- Modelled from the spec (claim C4's wording): the effective 1-based
end row after clamping — an end that is not an integer or is smaller
than the (clamped) start resets to the table length, an integer end is
otherwise capped at the table length. -/
def claimedEffEnd (e : ConfigVal) (start n : Nat) : Nat :=
  match e with
  | ConfigVal.intVal j => if (start : Int) ≤ j then min j.toNat n else n
  | _ => n

/-- A concrete 10-row marks table for the claim's examples. -/
def rows10 : List Row :=
  (List.range 10).map (fun i => [("row", Value.num (Int.ofNat i))])

/-- Splitting a character list at every separator satisfying `p`
(Python `re`-free tokenization helper for the spec-side reading). -/
def splitOnP (p : Char → Bool) : List Char → List (List Char)
  | [] => [[]]
  | c :: rest =>
    if p c then [] :: splitOnP p rest
    else
      match splitOnP p rest with
      | t :: ts => (c :: t) :: ts
      | [] => [[c]]

/-- Modelled from the spec: "splitting on whitespace and taking the
second token" — the second nonempty maximal run of non-whitespace
characters, empty when there is none. -/
def secondWhitespaceToken (s : String) : String :=
  String.mk
    ((((splitOnP (fun c => c.isWhitespace) s.toList).filter
        (fun t => !(t.isEmpty))).get? 1).getD [])

/-- The second single-space-separated field of a string: the characters
strictly between the first space and the next space (or the end); empty
when the string has no space.  Stated independently of `splitOnChar`,
for comparison with the code's derivation. -/
def secondSpaceField (s : String) : String :=
  if s.toList.contains ' ' then
    String.mk
      (((s.toList.dropWhile (fun c => !(c == ' '))).drop 1).takeWhile
        (fun c => !(c == ' ')))
  else ""

/-- What the amendment says the derived Submission_ID is, per cell
value kind. -/
def specSubmissionId (v : Value) : String :=
  match v with
  | Value.str s => secondSpaceField s
  | _ => ""

/-- A one-row marks table retaining login `u1`. -/
def c6marks : List Row := [[("Login", Value.str "u1")]]

/-- A reference row (as loaded, Login already derived) whose Identifier
has a single space before the submission number. -/
def c6ref : Row :=
  [("Login", Value.str "u1"), ("Identifier", Value.str "Participant 987"),
   ("Full name", Value.str "A B")]

/-- A reference row whose Identifier has two consecutive spaces before
the submission number. -/
def c6refDouble : Row :=
  [("Login", Value.str "u1"),
   ("Identifier", Value.str "Participant  12345"),
   ("Full name", Value.str "A B")]

/-- A marks row with a non-empty key and a string feedback filename. -/
def exRowFb : Row :=
  [("Login", Value.str "abc1"), ("feedback_filename", Value.str "fb1")]

/-- A marks row with a non-empty key but no feedback filename column. -/
def exRowNoFb : Row := [("Login", Value.str "abc1")]

/-- A one-row marks table for the C8 example. -/
def c8marks : List Row := [[("Login", Value.str "abc1"), ("Grade", Value.num 68)]]

/-- A retained reference row for the C8 example. -/
def c8refRow : Row :=
  [("Login", Value.str "abc1"), ("Full name", Value.str "A B"),
   ("Submission_ID", Value.str "987"), ("feedback_filename", Value.str "fb")]

/-! ## Helper lemmas -/

theorem toNat_lowerChar (c : Char) :
    (lowerChar c).toNat =
      if 65 ≤ c.toNat ∧ c.toNat ≤ 90 then c.toNat + 32 else c.toNat := by
  unfold lowerChar
  split
  · simp [Char.ofNatAux, Char.toNat, UInt32.ofNat', UInt32.toNat, BitVec.toNat_ofNatLt]
  · simp

theorem char_eq_of_toNat_eq {a b : Char} (h : a.toNat = b.toNat) : a = b := by
  have h2 := congrArg Char.ofNat h
  rwa [Char.ofNat_toNat, Char.ofNat_toNat] at h2

theorem lowerChar_idem (c : Char) : lowerChar (lowerChar c) = lowerChar c := by
  apply char_eq_of_toNat_eq
  rw [toNat_lowerChar (lowerChar c), toNat_lowerChar c]
  by_cases h : 65 ≤ c.toNat ∧ c.toNat ≤ 90 <;> simp [h] <;> omega

theorem pyLower_idem (s : String) : pyLower (pyLower s) = pyLower s := by
  unfold pyLower
  simp only [String.toList]
  congr 1
  simp only [List.map_map]
  apply List.map_congr_left
  intro c _
  exact lowerChar_idem c

/-- A scan that never matches the pattern leaves the string unchanged,
whatever the fuel. -/
theorem removeAllFuel_of_no_occurrence (pat : List Char) (fuel : Nat)
    (s : List Char) (h : hasOccurrence pat s = false) :
    removeAllFuel pat fuel s = s := by
  induction fuel generalizing s with
  | zero => cases s <;> rfl
  | succ fuel ih =>
    cases s with
    | nil => rfl
    | cons c rest =>
      have h2 : hasOccurrence pat (c :: rest) = false := h
      unfold hasOccurrence at h2
      simp only [Bool.or_eq_false_iff] at h2
      unfold removeAllFuel
      rw [if_neg]
      · rw [ih rest h2.2]
      · intro hcontra
        rw [hcontra.2] at h2
        exact absurd h2.1 (by simp)

theorem removeAll_of_no_occurrence (pat s : List Char)
    (h : hasOccurrence pat s = false) : removeAll pat s = s :=
  removeAllFuel_of_no_occurrence pat s.length s h

/-- `isPrefixOf` is preserved by mapping a function over both lists. -/
theorem isPrefixOf_map (f : Char → Char) (pat s : List Char)
    (h : pat.isPrefixOf s = true) :
    (pat.map f).isPrefixOf (s.map f) = true := by
  induction pat generalizing s with
  | nil => simp
  | cons p ps ih =>
    cases s with
    | nil => simp at h
    | cons c cs =>
      simp only [List.isPrefixOf_cons₂] at h
      simp only [List.map_cons, List.isPrefixOf_cons₂]
      simp only [Bool.and_eq_true, beq_iff_eq] at h ⊢
      exact ⟨by rw [h.1], ih cs h.2⟩

/-- An occurrence of a pattern survives mapping a function over the
string, with the pattern mapped too. -/
theorem hasOccurrence_map (f : Char → Char) (pat s : List Char)
    (h : hasOccurrence pat s = true) :
    hasOccurrence (pat.map f) (s.map f) = true := by
  induction s with
  | nil =>
    unfold hasOccurrence at h ⊢
    simp_all
  | cons c cs ih =>
    unfold hasOccurrence at h
    simp only [Bool.or_eq_true] at h
    unfold hasOccurrence
    simp only [List.map_cons, Bool.or_eq_true]
    rcases h with h | h
    · left
      have := isPrefixOf_map f pat (c :: cs) h
      simpa using this
    · right
      exact ih h

/-- The domain suffix is already lower-case. -/
theorem kentSuffix_map_lowerChar : kentSuffix.map lowerChar = kentSuffix := by decide

/-- If the lower-cased string has no occurrence of the (lower-case)
suffix, the original string has none either. -/
theorem no_occurrence_of_lower (s : List Char)
    (h : hasOccurrence kentSuffix (s.map lowerChar) = false) :
    hasOccurrence kentSuffix s = false := by
  by_contra hcontra
  rw [Bool.not_eq_false] at hcontra
  have h2 := hasOccurrence_map lowerChar kentSuffix s hcontra
  rw [kentSuffix_map_lowerChar] at h2
  rw [h2] at h
  exact absurd h (by simp)

theorem toList_mk (cs : List Char) : (String.mk cs).toList = cs := rfl

/-- On strings whose lower-casing contains no occurrence of the domain
suffix, `normalize_login` is plain lower-casing. -/
theorem normalize_login_eq_pyLower (s : String)
    (h : hasOccurrence kentSuffix (s.toList.map lowerChar) = false) :
    normalize_login s = pyLower s := by
  unfold normalize_login
  rw [removeAll_of_no_occurrence kentSuffix s.toList (no_occurrence_of_lower _ h)]
  cases s
  rfl

theorem toList_pyLower (s : String) : (pyLower s).toList = s.toList.map lowerChar := rfl

theorem map_lowerChar_toList_pyLower (s : String) :
    (pyLower s).toList.map lowerChar = s.toList.map lowerChar := by
  rw [toList_pyLower, List.map_map]
  apply List.map_congr_left
  intro c _
  exact lowerChar_idem c

/-! ## C3 -/

/-- C3 counterexample: `normalize_login` strips the literal suffix
BEFORE lower-casing, so on `"A@KENT.AC.UK"` (upper-case domain) the
suffix is not stripped and a second application strips it: the
normalization is neither idempotent nor case-insensitive at this
input. -/
theorem c3_counterexample :
    normalize_login (normalize_login "A@KENT.AC.UK") ≠
      normalize_login "A@KENT.AC.UK" ∧
    pyLower "A@KENT.AC.UK" = pyLower "a@kent.ac.uk" ∧
    normalize_login "A@KENT.AC.UK" ≠ normalize_login "a@kent.ac.uk" := by
  refine ⟨by decide, by decide, by decide⟩

/-- C3 (amended): on strings whose lower-casing contains no occurrence
of the domain suffix `"@kent.ac.uk"`, the reference-table Login
normalization is idempotent and case-insensitive (strings equal up to
letter case normalize alike); in particular the spec's example
`normalize("Foo@Bar") == normalize("foo@bar")` holds.  (Without that
restriction both properties fail, see the counterexample.) -/
theorem c3_normalization_on_suffix_free_strings :
    (∀ s : String, hasOccurrence kentSuffix (s.toList.map lowerChar) = false →
      normalize_login (normalize_login s) = normalize_login s) ∧
    (∀ s t : String, pyLower s = pyLower t →
      hasOccurrence kentSuffix (s.toList.map lowerChar) = false →
      normalize_login s = normalize_login t) ∧
    normalize_login "Foo@Bar" = normalize_login "foo@bar" := by
  have key : ∀ s : String,
      hasOccurrence kentSuffix (s.toList.map lowerChar) = false →
      normalize_login s = pyLower s := normalize_login_eq_pyLower
  refine ⟨?_, ?_, by decide⟩
  · intro s h
    have h2 : hasOccurrence kentSuffix ((pyLower s).toList.map lowerChar) = false := by
      rw [map_lowerChar_toList_pyLower]
      exact h
    rw [key s h, key (pyLower s) h2, pyLower_idem]
  · intro s t hst h
    have ht : hasOccurrence kentSuffix (t.toList.map lowerChar) = false := by
      have : t.toList.map lowerChar = s.toList.map lowerChar := by
        rw [← toList_pyLower, ← toList_pyLower, hst]
      rw [this]
      exact h
    rw [key s h, key t ht, hst]

/-- C3 witness: the amended theorem applied at `"Foo@Bar"` and
`"foo@bar"`. -/
theorem c3_witness :
    normalize_login (normalize_login "Foo@Bar") = normalize_login "Foo@Bar" ∧
    normalize_login "Foo@Bar" = normalize_login "foo@bar" :=
  ⟨c3_normalization_on_suffix_free_strings.1 "Foo@Bar" (by decide),
   c3_normalization_on_suffix_free_strings.2.1 "Foo@Bar" "foo@bar" (by decide)
     (by decide)⟩

/-! ## Row access lemmas -/

theorem rowGet_overwrite (k : String) (v : Value) (r : Row)
    (h : r.any (fun p => p.fst == k) = true) :
    rowGet (r.map (fun p => if p.fst == k then (p.fst, v) else p)) k = some v := by
  induction r with
  | nil => simp at h
  | cons p ps ih =>
    simp only [List.any_cons, Bool.or_eq_true] at h
    by_cases hk : p.fst == k
    · unfold rowGet
      simp [List.find?, hk]
    · have h2 : ps.any (fun p => p.fst == k) = true := by
        rcases h with h | h
        · exact absurd h hk
        · exact h
      unfold rowGet
      simp only [List.map_cons, if_neg hk, List.find?]
      rw [show (p.fst == k) = false from by simpa using hk]
      exact ih h2

theorem rowGet_append_missing (k : String) (v : Value) (r : Row)
    (h : r.any (fun p => p.fst == k) = false) :
    rowGet (r ++ [(k, v)]) k = some v := by
  induction r with
  | nil => simp [rowGet, List.find?]
  | cons p ps ih =>
    simp only [List.any_cons, Bool.or_eq_false_iff] at h
    unfold rowGet
    simp only [List.cons_append, List.find?]
    rw [h.1]
    exact ih h.2

theorem rowGet_setCol_self (k : String) (v : Value) (r : Row) :
    rowGet (setCol k v r) k = some v := by
  cases hany : r.any (fun p => p.fst == k) with
  | true =>
    unfold setCol
    rw [if_pos hany]
    exact rowGet_overwrite k v r hany
  | false =>
    unfold setCol
    rw [if_neg (by rw [hany]; exact Bool.false_ne_true)]
    exact rowGet_append_missing k v r hany

theorem rowGet_map_overwrite_ne (k k' : String) (v : Value) (r : Row)
    (h : k' ≠ k) :
    rowGet (r.map (fun p => if p.fst == k then (p.fst, v) else p)) k' =
      rowGet r k' := by
  induction r with
  | nil => rfl
  | cons p ps ih =>
    by_cases hk : p.fst == k
    · have hne : (p.fst == k') = false := by
        have hfst : p.fst = k := by simpa using hk
        simp [hfst]
        exact fun hcontra => h hcontra.symm
      unfold rowGet
      simp only [List.map_cons, if_pos hk, List.find?, hne]
      exact ih
    · unfold rowGet
      simp only [List.map_cons, if_neg hk, List.find?]
      cases hpk : (p.fst == k') with
      | true => rfl
      | false => exact ih

theorem rowGet_append_ne (k k' : String) (v : Value) (r : Row) (h : k' ≠ k) :
    rowGet (r ++ [(k, v)]) k' = rowGet r k' := by
  induction r with
  | nil =>
    unfold rowGet
    simp only [List.nil_append, List.find?]
    rw [show (k == k') = false from
      beq_eq_false_iff_ne.mpr (fun hc => h hc.symm)]
  | cons p ps ih =>
    unfold rowGet
    simp only [List.cons_append, List.find?]
    cases hpk : (p.fst == k') with
    | true => rfl
    | false => exact ih

theorem rowGet_setCol_ne (k k' : String) (v : Value) (r : Row) (h : k' ≠ k) :
    rowGet (setCol k v r) k' = rowGet r k' := by
  unfold setCol
  split
  · exact rowGet_map_overwrite_ne k k' v r h
  · exact rowGet_append_ne k k' v r h

theorem rowGet_dropCols_mem (ks : List String) (k : String) (r : Row)
    (h : ks.contains k = true) : rowGet (dropCols ks r) k = none := by
  induction r with
  | nil => rfl
  | cons p ps ih =>
    unfold dropCols at ih ⊢
    by_cases hp : ks.contains p.fst
    · simp only [List.filter_cons, hp, Bool.not_true]
      exact ih
    · simp only [List.filter_cons, Bool.not_eq_true', show ks.contains p.fst = false from by simpa using hp]
      unfold rowGet
      simp only [List.find?]
      cases hpk : (p.fst == k) with
      | true =>
        have : p.fst = k := by simpa using hpk
        rw [this] at hp
        exact absurd h hp
      | false => exact ih

/-- Pandas boolean indexing with a mask computed by mapping a predicate
over the rows is `List.filter`. -/
theorem booleanIndex_map_eq_filter (p : α → Bool) (l : List α) :
    booleanIndex (l.map p) l = l.filter p := by
  induction l with
  | nil => rfl
  | cons x xs ih =>
    unfold booleanIndex at ih ⊢
    simp only [List.map_cons, List.zip_cons_cons, List.foldr_cons, List.filter_cons]
    rw [ih]

theorem rowGet_dropCols_not_mem (ks : List String) (k : String) (r : Row)
    (h : ks.contains k = false) : rowGet (dropCols ks r) k = rowGet r k := by
  induction r with
  | nil => rfl
  | cons p ps ih =>
    unfold dropCols at ih ⊢
    by_cases hp : ks.contains p.fst
    · have hpk : (p.fst == k) = false := by
        cases hkk : (p.fst == k) with
        | true =>
          have : p.fst = k := by simpa using hkk
          rw [this] at hp
          rw [hp] at h
          exact absurd h (by simp)
        | false => rfl
      simp only [List.filter_cons, hp, Bool.not_true]
      unfold rowGet
      simp only [List.find?, hpk]
      exact ih
    · simp only [List.filter_cons, Bool.not_eq_true', show ks.contains p.fst = false from by simpa using hp]
      unfold rowGet
      simp only [List.find?]
      cases hpk : (p.fst == k) with
      | true => rfl
      | false => exact ih

/-! ## C4 -/

theorem pySlice_none (a : Int) (rows : List α) :
    pySlice a none rows = rows.drop a.toNat := rfl

theorem pySlice_some (a b : Int) (rows : List α) :
    pySlice a (some b) rows = (rows.take b.toNat).drop a.toNat := rfl

theorem claimedEffStart_pos (s : ConfigVal) (n : Nat) :
    1 ≤ claimedEffStart s n := by
  cases s with
  | intVal i =>
    simp only [claimedEffStart]
    split
    · omega
    · omega
  | null => exact Nat.le_refl 1
  | other => exact Nat.le_refl 1

theorem validate_fst_eq (s e : ConfigVal) (n : Nat) :
    (validate_row_limits s e n).fst = (claimedEffStart s n : Int) - 1 := by
  cases s with
  | intVal i =>
    simp only [validate_row_limits, claimedEffStart]
    split_ifs <;> omega
  | null => simp [validate_row_limits, claimedEffStart]
  | other => simp [validate_row_limits, claimedEffStart]

theorem validate_snd_eq (s : ConfigVal) (j : Int) (n : Nat) :
    (validate_row_limits s (ConfigVal.intVal j) n).snd =
      some ((claimedEffEnd (ConfigVal.intVal j) (claimedEffStart s n) n : Int)) := by
  have hfst := validate_fst_eq s (ConfigVal.intVal j) n
  have hpos := claimedEffStart_pos s n
  simp only [validate_row_limits] at hfst ⊢
  simp only [claimedEffEnd]
  split_ifs with h1 h2 h2 <;> simp only [Option.some_inj] <;> omega

/-- C4 (confirmed): the `iloc` slice taken after `validate_row_limits`
is exactly the claim's clamped 1-based inclusive range
`[claimedEffStart, claimedEffEnd]`: a non-positive-integer or
out-of-bounds start resets to 1, an end that is not an integer or is
below the (clamped) start resets to the table length, an integer end in
range is kept and larger ones are capped; in particular `start=0,
end=None` on a 10-row table selects all 10 rows, and `start=5, end=3`
yields effective end 10. -/
theorem c4_row_range_clamping (rows : List Row) (s e : ConfigVal) :
    pySlice (validate_row_limits s e rows.length).fst
        (validate_row_limits s e rows.length).snd rows =
      (rows.take
          (claimedEffEnd e (claimedEffStart s rows.length) rows.length)).drop
        (claimedEffStart s rows.length - 1) ∧
    pySlice (validate_row_limits (ConfigVal.intVal 0) ConfigVal.null 10).fst
        (validate_row_limits (ConfigVal.intVal 0) ConfigVal.null 10).snd rows10 =
      rows10 ∧
    (validate_row_limits (ConfigVal.intVal 5) (ConfigVal.intVal 3) 10).snd =
      some 10 := by
  refine ⟨?_, by decide, by decide⟩
  have hfst := validate_fst_eq s e rows.length
  have hpos := claimedEffStart_pos s rows.length
  cases e with
  | null =>
    have hsnd : (validate_row_limits s ConfigVal.null rows.length).snd = none := by
      cases s <;> rfl
    rw [hsnd, pySlice_none, hfst]
    rw [show claimedEffEnd ConfigVal.null (claimedEffStart s rows.length)
        rows.length = rows.length from rfl]
    rw [List.take_length]
    rw [show ((claimedEffStart s rows.length : Int) - 1).toNat =
        claimedEffStart s rows.length - 1 from by omega]
  | other =>
    have hsnd : (validate_row_limits s ConfigVal.other rows.length).snd =
        some (rows.length : Int) := by
      cases s <;> rfl
    rw [hsnd, pySlice_some, hfst]
    rw [show claimedEffEnd ConfigVal.other (claimedEffStart s rows.length)
        rows.length = rows.length from rfl]
    rw [show ((rows.length : Int)).toNat = rows.length from by omega]
    rw [show ((claimedEffStart s rows.length : Int) - 1).toNat =
        claimedEffStart s rows.length - 1 from by omega]
  | intVal j =>
    rw [validate_snd_eq s j rows.length, pySlice_some, hfst]
    rw [show ((claimedEffEnd (ConfigVal.intVal j) (claimedEffStart s rows.length)
        rows.length : Int)).toNat =
        claimedEffEnd (ConfigVal.intVal j) (claimedEffStart s rows.length)
          rows.length from by omega]
    rw [show ((claimedEffStart s rows.length : Int) - 1).toNat =
        claimedEffStart s rows.length - 1 from by omega]

/-! ## C6 -/

theorem splitOnChar_ne_nil (sep : Char) (s : List Char) :
    splitOnChar sep s ≠ [] := by
  cases s with
  | nil => simp [splitOnChar]
  | cons c rest =>
    unfold splitOnChar
    split
    · simp
    · split <;> simp

theorem head_splitOnChar (sep : Char) (s : List Char) :
    (splitOnChar sep s).head? = some (s.takeWhile (fun c => !(c == sep))) := by
  induction s with
  | nil => rfl
  | cons c rest ih =>
    by_cases hc : c = sep
    · subst hc
      unfold splitOnChar
      simp [List.takeWhile]
    · unfold splitOnChar
      rw [if_neg hc]
      cases hsp : splitOnChar sep rest with
      | nil => exact absurd hsp (splitOnChar_ne_nil sep rest)
      | cons t ts =>
        rw [hsp] at ih
        simp only [List.head?] at ih
        simp only [List.head?, Option.some_inj] at ih ⊢
        rw [List.takeWhile_cons]
        rw [show (!(c == sep)) = true from by simpa using hc]
        simp [ih]

theorem get1_splitOnChar (sep : Char) (s : List Char)
    (h : s.contains sep = true) :
    (splitOnChar sep s).get? 1 =
      some (((s.dropWhile (fun c => !(c == sep))).drop 1).takeWhile
        (fun c => !(c == sep))) := by
  induction s with
  | nil => simp at h
  | cons c rest ih =>
    by_cases hc : c = sep
    · subst hc
      unfold splitOnChar
      rw [if_pos rfl]
      have hget : ([] :: splitOnChar c rest).get? 1 = (splitOnChar c rest).head? := by
        cases hsp : splitOnChar c rest with
        | nil => exact absurd hsp (splitOnChar_ne_nil c rest)
        | cons t ts => rfl
      rw [hget, head_splitOnChar, List.dropWhile_cons]
      simp
    · have hrest : rest.contains sep = true := by
        simp only [List.contains_cons] at h
        rcases Bool.or_eq_true_iff.mp h with h1 | h1
        · have h2 : sep = c := by simpa using h1
          exact absurd h2.symm hc
        · exact h1
      unfold splitOnChar
      rw [if_neg hc]
      cases hsp : splitOnChar sep rest with
      | nil => exact absurd hsp (splitOnChar_ne_nil sep rest)
      | cons t ts =>
        rw [hsp] at ih
        have ih2 := ih hrest
        simp only [List.get?] at ih2 ⊢
        rw [List.dropWhile_cons]
        rw [show (!(c == sep)) = true from by simpa using hc]
        exact ih2

theorem submission_ID_eq_specSubmissionId (v : Value) :
    submission_ID v = specSubmissionId v := by
  cases v with
  | num n => rfl
  | nan => rfl
  | str s =>
    show (if s.toList.contains ' ' then
        String.mk (((splitOnChar ' ' s.toList).get? 1).getD [])
      else "") = secondSpaceField s
    unfold secondSpaceField
    by_cases h : s.toList.contains ' '
    · rw [if_pos h, if_pos h, get1_splitOnChar ' ' s.toList h]
      rfl
    · rw [if_neg h, if_neg h]

/-- C6 counterexample: on Identifier `"Participant  12345"` (two
spaces) the code's `split(" ")[1]` yields the empty string for the
retained row, while the second whitespace-separated token is
`"12345"`: the derived Submission_ID does not equal the second
whitespace-separated token. -/
theorem c6_counterexample :
    (validate_reference_worksheet [c6refDouble] c6marks "M" "A").map
        (fun r => rowGet r "Submission_ID") = [some (Value.str "")] ∧
    secondWhitespaceToken "Participant  12345" = "12345" ∧
    Value.str "" ≠ Value.str "12345" :=
  ⟨by decide, by decide, by decide⟩

/-- C6 (amended): for every retained reference row, the derived
`Submission_ID` is the second single-SPACE-separated field of the
row's `Identifier` — the characters strictly between the first space
and the next space or the end, so consecutive spaces yield an empty
field — and the empty string whenever the `Identifier` lacks a space
or is not a text value. -/
theorem c6_submission_id_is_second_space_field
    (df_ref df_marks : List Row) (module_name assignment_name : String)
    (r : Row)
    (h : r ∈ validate_reference_worksheet df_ref df_marks module_name
      assignment_name) :
    rowGet r "Submission_ID" =
      some (Value.str (specSubmissionId
        ((rowGet r "Identifier").getD Value.nan))) := by
  unfold validate_reference_worksheet at h
  rw [List.mem_map] at h
  obtain ⟨r0, hr0, rfl⟩ := h
  simp only [augmentRow]
  have hne1 : ("Submission_ID" : String) ≠ "feedback_filename" := by decide
  have hne2 : ("Identifier" : String) ≠ "feedback_filename" := by decide
  have hne3 : ("Identifier" : String) ≠ "Submission_ID" := by decide
  rw [rowGet_setCol_ne _ _ _ _ hne1, rowGet_setCol_self,
    rowGet_setCol_ne _ _ _ _ hne2, rowGet_setCol_ne _ _ _ _ hne3,
    submission_ID_eq_specSubmissionId]

/-- C6 witness: the amended theorem applied to the single retained row
of a concrete reconciliation. -/
theorem c6_witness :
    rowGet (augmentRow "M" "A" c6ref) "Submission_ID" =
      some (Value.str (specSubmissionId
        ((rowGet (augmentRow "M" "A" c6ref) "Identifier").getD Value.nan))) :=
  c6_submission_id_is_second_space_field [c6ref] c6marks "M" "A"
    (augmentRow "M" "A" c6ref) (by decide)

/-! ## Emit loop lemmas -/

theorem isOkE_write_to_word_file (mapping : List (String × String)) (row : Row) :
    isOkE (write_to_word_file mapping row) = mappingRefsParse mapping := by
  induction mapping with
  | nil => rfl
  | cons p rest ih =>
    obtain ⟨cn, cr⟩ := p
    cases hp : excel_cell_ref_to_indices cr with
    | none =>
      simp only [write_to_word_file, hp, mappingRefsParse, List.all_cons]
      simp [isOkE, hp]
    | some ij =>
      have hall : mappingRefsParse ((cn, cr) :: rest) = mappingRefsParse rest := by
        unfold mappingRefsParse
        rw [List.all_cons, hp]
        simp
      rw [hall]
      simp only [write_to_word_file, hp]
      cases hw : write_to_word_file rest row with
      | ok ws =>
        rw [hw] at ih
        simp only [isOkE] at ih ⊢
        exact ih
      | error e =>
        rw [hw] at ih
        simp only [isOkE] at ih ⊢
        exact ih

theorem do_generate_reports_ok (ext key_column : String)
    (mapping : List (String × String)) (output_folder : String)
    (rows : List Row) :
    (∀ row ∈ rows, validRowKey key_column row = true →
      hasStrFeedback row = true) →
    (ext = ".docx" → mappingRefsParse mapping = true) →
    ∃ r, do_generate_reports rows ext key_column mapping output_folder =
        Except.ok r ∧
      r.count = (rows.filter (validRowKey key_column)).length ∧
      r.docs.map SavedDoc.path =
        (if ext = ".docx" ∨ ext = ".xlsx" then
          (rows.filter (validRowKey key_column)).map
            (fun row => joinPath output_folder (feedbackString row ++ ext))
        else []) := by
  induction rows with
  | nil =>
    intro _ _
    refine ⟨⟨[], 0⟩, rfl, by simp, ?_⟩
    by_cases hext : ext = ".docx" ∨ ext = ".xlsx"
    · rw [if_pos hext]
      simp
    · rw [if_neg hext]
      simp
  | cons row rest ih =>
    intro hfb hw
    by_cases hv : skipRow key_column row = true
    · have hfilter : (row :: rest).filter (validRowKey key_column) =
          rest.filter (validRowKey key_column) := by
        rw [List.filter_cons]
        simp [validRowKey, hv]
      obtain ⟨r, hr, hc, hd⟩ :=
        ih (fun row0 h0 hval => hfb row0 (List.mem_cons_of_mem _ h0) hval) hw
      refine ⟨r, ?_, by rw [hfilter]; exact hc, by rw [hfilter]; exact hd⟩
      simp only [do_generate_reports, if_pos hv]
      exact hr
    · have hvalid : validRowKey key_column row = true := by
        simp [validRowKey]
        simpa using hv
      have hfilter : (row :: rest).filter (validRowKey key_column) =
          row :: rest.filter (validRowKey key_column) := by
        rw [List.filter_cons, if_pos hvalid]
      have hfs := hfb row (List.mem_cons_self _ _) hvalid
      obtain ⟨s, hs⟩ : ∃ s, rowGet row "feedback_filename" =
          some (Value.str s) := by
        unfold hasStrFeedback at hfs
        cases hrg : rowGet row "feedback_filename" with
        | none =>
          rw [hrg] at hfs
          simp at hfs
        | some v =>
          cases v with
          | str s2 => exact ⟨s2, rfl⟩
          | num n =>
            rw [hrg] at hfs
            simp at hfs
          | nan =>
            rw [hrg] at hfs
            simp at hfs
      have hfbs : feedbackString row = s := by
        unfold feedbackString
        rw [hs]
      obtain ⟨r, hr, hc, hd⟩ :=
        ih (fun row0 h0 hval => hfb row0 (List.mem_cons_of_mem _ h0) hval) hw
      simp only [do_generate_reports, if_neg hv, hs]
      by_cases hdocx : ext = ".docx"
      · obtain ⟨cells, hcells⟩ : ∃ cells,
            write_to_word_file mapping row = Except.ok cells := by
          have h1 := isOkE_write_to_word_file mapping row
          rw [hw hdocx] at h1
          cases hwr : write_to_word_file mapping row with
          | ok ws => exact ⟨ws, rfl⟩
          | error e =>
            rw [hwr] at h1
            simp [isOkE] at h1
        rw [if_pos hdocx, hcells, hr]
        refine ⟨⟨⟨joinPath output_folder (s ++ ext), DocContent.word cells⟩ ::
          r.docs, r.count + 1⟩, rfl, ?_, ?_⟩
        · rw [hfilter]
          simp [hc]
        · rw [hfilter, if_pos (Or.inl hdocx)]
          rw [if_pos (Or.inl hdocx)] at hd
          simp only [List.map_cons, hfbs]
          rw [hd]
      · by_cases hxlsx : ext = ".xlsx"
        · rw [if_neg hdocx, if_pos hxlsx, hr]
          refine ⟨⟨⟨joinPath output_folder (s ++ ext),
            DocContent.excel (write_to_excel_file mapping row)⟩ ::
            r.docs, r.count + 1⟩, rfl, ?_, ?_⟩
          · rw [hfilter]
            simp [hc]
          · rw [hfilter, if_pos (Or.inr hxlsx)]
            rw [if_pos (Or.inr hxlsx)] at hd
            simp only [List.map_cons, hfbs]
            rw [hd]
        · rw [if_neg hdocx, if_neg hxlsx, hr]
          refine ⟨⟨r.docs, r.count + 1⟩, rfl, ?_, ?_⟩
          · rw [hfilter]
            simp [hc]
          · have hnot : ¬ (ext = ".docx" ∨ ext = ".xlsx") := by
              intro hcontra
              rcases hcontra with h1 | h1
              · exact hdocx h1
              · exact hxlsx h1
            rw [if_neg hnot]
            rw [if_neg hnot] at hd
            exact hd

theorem do_generate_reports_all_skipped (ext key_column : String)
    (mapping : List (String × String)) (output_folder : String)
    (rows : List Row)
    (h : ∀ row ∈ rows, validRowKey key_column row = false) :
    do_generate_reports rows ext key_column mapping output_folder =
      Except.ok ⟨[], 0⟩ := by
  induction rows with
  | nil => rfl
  | cons row rest ih =>
    have hv : skipRow key_column row = true := by
      have h2 := h row (List.mem_cons_self _ _)
      unfold validRowKey at h2
      simpa using h2
    simp only [do_generate_reports, if_pos hv]
    exact ih (fun row0 h0 => h row0 (List.mem_cons_of_mem _ h0))

theorem do_generate_reports_error_of_bad_row (ext key_column : String)
    (mapping : List (String × String)) (output_folder : String)
    (rows : List Row)
    (hbad : ∃ row ∈ rows, validRowKey key_column row = true ∧
      (hasStrFeedback row = false ∨
        (ext = ".docx" ∧ mappingRefsParse mapping = false))) :
    isOkE (do_generate_reports rows ext key_column mapping output_folder) =
      false := by
  induction rows with
  | nil =>
    obtain ⟨row, hmem, _⟩ := hbad
    simp at hmem
  | cons row rest ih =>
    obtain ⟨row0, hmem0, hval0, hcond0⟩ := hbad
    by_cases hv : skipRow key_column row = true
    · simp only [do_generate_reports, if_pos hv]
      rcases List.mem_cons.mp hmem0 with heq | hmem1
      · subst heq
        unfold validRowKey at hval0
        rw [hv] at hval0
        simp at hval0
      · exact ih ⟨row0, hmem1, hval0, hcond0⟩
    · cases hrg : rowGet row "feedback_filename" with
      | none =>
        simp only [do_generate_reports, if_neg hv, hrg]
        simp [isOkE]
      | some v =>
        cases v with
        | num n =>
          simp only [do_generate_reports, if_neg hv, hrg]
          simp [isOkE]
        | nan =>
          simp only [do_generate_reports, if_neg hv, hrg]
          simp [isOkE]
        | str s =>
          have hfbrow : hasStrFeedback row = true := by
            unfold hasStrFeedback
            rw [hrg]
          simp only [do_generate_reports, if_neg hv, hrg]
          by_cases hdocx : ext = ".docx"
          · rw [if_pos hdocx]
            cases hwr : write_to_word_file mapping row with
            | error e => simp [isOkE]
            | ok cells =>
              have hparse : mappingRefsParse mapping = true := by
                have h1 := isOkE_write_to_word_file mapping row
                rw [hwr] at h1
                simpa [isOkE] using h1.symm
              have hrest : row0 ∈ rest := by
                rcases List.mem_cons.mp hmem0 with heq | hmem1
                · subst heq
                  rcases hcond0 with h1 | h1
                  · rw [hfbrow] at h1
                    exact absurd h1 (by simp)
                  · rw [hparse] at h1
                    exact absurd h1.2 (by simp)
                · exact hmem1
              have ihrest := ih ⟨row0, hrest, hval0, hcond0⟩
              cases hdr : do_generate_reports rest ext key_column mapping
                  output_folder with
              | ok r =>
                rw [hdr] at ihrest
                simp [isOkE] at ihrest
              | error e => simp [isOkE]
          · have hrest : row0 ∈ rest := by
              rcases List.mem_cons.mp hmem0 with heq | hmem1
              · subst heq
                rcases hcond0 with h1 | h1
                · rw [hfbrow] at h1
                  exact absurd h1 (by simp)
                · exact absurd h1.1 hdocx
              · exact hmem1
            have ihrest := ih ⟨row0, hrest, hval0, hcond0⟩
            rw [if_neg hdocx]
            by_cases hxlsx : ext = ".xlsx"
            · rw [if_pos hxlsx]
              cases hdr : do_generate_reports rest ext key_column mapping
                  output_folder with
              | ok r =>
                rw [hdr] at ihrest
                simp [isOkE] at ihrest
              | error e => simp [isOkE]
            · rw [if_neg hxlsx]
              cases hdr : do_generate_reports rest ext key_column mapping
                  output_folder with
              | ok r =>
                rw [hdr] at ihrest
                simp [isOkE] at ihrest
              | error e => simp [isOkE]

/-! ## C5 -/

/-- C5 counterexample: a row whose key column is present and non-empty
but whose derived feedback filename is missing makes the generation
loop raise (`feedback_filename + ext` is a `TypeError`), so a per-row
problem does raise an exception that is not an I/O-level failure. -/
theorem c5_counterexample :
    do_generate_reports [exRowNoFb] ".xlsx" "Login" [] "out" =
      Except.error "TypeError: can only concatenate str to str" := by decide

/-- C5 (amended): a row with a missing/empty/NaN key column never
raises — it is skipped and the loop continues.  The loop raises
exactly when some non-skipped row lacks a string `feedback_filename`,
or, with a `.docx` template, the mapping contains an unparseable cell
reference; in particular not only I/O-level failures throw. -/
theorem c5_emit_raises_iff_bad_feedback_or_mapping (rows : List Row)
    (ext key_column : String) (mapping : List (String × String))
    (output_folder : String) :
    isOkE (do_generate_reports rows ext key_column mapping output_folder) =
        true ↔
      ∀ row ∈ rows, validRowKey key_column row = true →
        (hasStrFeedback row = true ∧
          (ext = ".docx" → mappingRefsParse mapping = true)) := by
  constructor
  · intro h row hmem hval
    constructor
    · by_contra hcon
      have hbad := do_generate_reports_error_of_bad_row ext key_column
        mapping output_folder rows
        ⟨row, hmem, hval, Or.inl (by simpa using hcon)⟩
      rw [h] at hbad
      exact absurd hbad (by simp)
    · intro hdocx
      by_contra hcon
      have hbad := do_generate_reports_error_of_bad_row ext key_column
        mapping output_folder rows
        ⟨row, hmem, hval, Or.inr ⟨hdocx, by simpa using hcon⟩⟩
      rw [h] at hbad
      exact absurd hbad (by simp)
  · intro h
    by_cases hex : ∃ row0 ∈ rows, validRowKey key_column row0 = true
    · obtain ⟨row0, hmem0, hval0⟩ := hex
      obtain ⟨r, hr, _, _⟩ := do_generate_reports_ok ext key_column mapping
        output_folder rows (fun r0 hm hv0 => (h r0 hm hv0).1)
        ((h row0 hmem0 hval0).2)
      rw [hr]
      rfl
    · push_neg at hex
      have hall : ∀ row0 ∈ rows, validRowKey key_column row0 = false := by
        intro r0 hm
        simpa using hex r0 hm
      rw [do_generate_reports_all_skipped ext key_column mapping output_folder
        rows hall]
      rfl

/-! ## C1 -/

/-- C1 counterexample: with an unsupported template extension (.pdf)
and one valid-key row, the loop saves no document yet reports a count
of 1 (it increments the counter and prints "Report saved" in the
fall-through branch), so the count does not equal the number of
documents successfully generated. -/
theorem c1_counterexample :
    ∃ r, do_generate_reports [exRowFb] ".pdf" "Login" [] "out" =
        Except.ok r ∧
      r.count = 1 ∧ r.docs = [] ∧ r.count ≠ r.docs.length :=
  ⟨⟨[], 1⟩, by decide, by decide, by decide, by decide⟩

/-- C1 (amended): when the template extension is `.docx` or `.xlsx`,
every selected row with a present non-empty key has a string derived
feedback filename, and (for Word templates) the mapping's cell
references parse, the loop produces exactly one output document per
such row — saved under the output folder as the row's feedback
filename plus the template extension, in row order — and the reported
count equals the number of documents generated; skipped rows produce
no document and are not counted. -/
theorem c1_one_document_per_valid_row (rows : List Row)
    (ext key_column : String) (mapping : List (String × String))
    (output_folder : String)
    (hext : ext = ".docx" ∨ ext = ".xlsx")
    (hfb : ∀ row ∈ rows, validRowKey key_column row = true →
      hasStrFeedback row = true)
    (hw : ext = ".docx" → mappingRefsParse mapping = true) :
    ∃ r, do_generate_reports rows ext key_column mapping output_folder =
        Except.ok r ∧
      r.docs.map SavedDoc.path =
        (rows.filter (validRowKey key_column)).map
          (fun row => joinPath output_folder (feedbackString row ++ ext)) ∧
      r.count = r.docs.length := by
  obtain ⟨r, hr, hc, hd⟩ := do_generate_reports_ok ext key_column mapping
    output_folder rows hfb hw
  rw [if_pos hext] at hd
  refine ⟨r, hr, hd, ?_⟩
  calc r.count = (rows.filter (validRowKey key_column)).length := hc
    _ = ((rows.filter (validRowKey key_column)).map
          (fun row => joinPath output_folder (feedbackString row ++ ext))).length := by
        rw [List.length_map]
    _ = (r.docs.map SavedDoc.path).length := by rw [hd]
    _ = r.docs.length := by rw [List.length_map]

/-- C1 witness: the amended theorem at a one-row table with an `.xlsx`
template. -/
theorem c1_witness :
    ∃ r, do_generate_reports [exRowFb] ".xlsx" "Login" [] "out" =
        Except.ok r ∧
      r.docs.map SavedDoc.path =
        ([exRowFb].filter (validRowKey "Login")).map
          (fun row => joinPath "out" (feedbackString row ++ ".xlsx")) ∧
      r.count = r.docs.length :=
  c1_one_document_per_valid_row [exRowFb] ".xlsx" "Login" [] "out"
    (Or.inr rfl) (by decide) (fun h => absurd h (by decide))

/-! ## C7 -/

/-- C7 counterexample: running the report generator with a `.pdf`
template on one valid row raises no error at all — the unsupported
template extension is only printed, the row is even counted — so an
unrecognized TEMPLATE extension is not "fatal for that load" as the
claim states. -/
theorem c7_counterexample :
    generate_reports [exRowFb] "template.pdf" (ConfigVal.intVal 1)
        ConfigVal.null "Login" [] "out" = Except.ok ⟨[], 1⟩ := by decide

/-- C7 (amended): for tables, `load_dataframe` succeeds exactly on the
extensions `.csv`, `.xls`, `.xlsx` (the extension lower-cased first),
and fails with `Unsupported file format` otherwise.  For templates the
dispatch is NOT fatal: with any extension other than `.docx`/`.xlsx`
the loop completes without error and saves no documents (though it
still counts non-skipped rows). -/
theorem c7_unsupported_format_handling :
    (∀ filename : String,
      isOkE (load_dataframe_format filename) = true ↔
        (fileExtension filename = ".csv" ∨ fileExtension filename = ".xls" ∨
          fileExtension filename = ".xlsx")) ∧
    (∀ (rows : List Row) (ext key_column : String)
        (mapping : List (String × String)) (output_folder : String),
      ¬(ext = ".docx" ∨ ext = ".xlsx") →
      (∀ row ∈ rows, validRowKey key_column row = true →
        hasStrFeedback row = true) →
      ∃ r, do_generate_reports rows ext key_column mapping output_folder =
          Except.ok r ∧ r.docs = []) := by
  constructor
  · intro filename
    unfold load_dataframe_format
    by_cases h1 : fileExtension filename = ".csv"
    · rw [if_pos h1]
      simp [isOkE, h1]
    · rw [if_neg h1]
      by_cases h2 : fileExtension filename = ".xls" ∨
          fileExtension filename = ".xlsx"
      · rw [if_pos h2]
        simp [isOkE, h1]
        exact h2
      · rw [if_neg h2]
        simp [isOkE, h1]
        exact ⟨fun hcon => h2 (Or.inl hcon), fun hcon => h2 (Or.inr hcon)⟩
  · intro rows ext key_column mapping output_folder hext hfb
    have hw : ext = ".docx" → mappingRefsParse mapping = true := by
      intro hcon
      exact absurd (Or.inl hcon) hext
    obtain ⟨r, hr, hc, hd⟩ := do_generate_reports_ok ext key_column mapping
      output_folder rows hfb hw
    rw [if_neg hext] at hd
    refine ⟨r, hr, ?_⟩
    have := List.map_eq_nil.mp hd
    exact this

/-- C7 witness: the amended theorem at a `.csv` table load and at a
one-row run with a `.pdf` template. -/
theorem c7_witness :
    isOkE (load_dataframe_format "marks.csv") = true ∧
    (∃ r, do_generate_reports [exRowFb] ".pdf" "Login" [] "out" =
        Except.ok r ∧ r.docs = []) :=
  ⟨(c7_unsupported_format_handling.1 "marks.csv").mpr (Or.inl (by decide)),
   c7_unsupported_format_handling.2 [exRowFb] ".pdf" "Login" [] "out"
     (by decide) (by decide)⟩

/-! ## C2 -/

/-- C2 (confirmed): for every marks table and reference table (with the
load-stage Login normalizations applied), the reconciled table returned
by `validate_reference_worksheet` consists of exactly the
`augmentRow`-extended versions of those reference rows whose normalized
Login occurs among the marks table's normalized Logins: the kept rows
are a filter of the reference table — a sublist, hence in the input's
relative order, with membership exactly characterized (no extras, no
omissions) — and the Logins compared are the normalized ones. -/
theorem c2_reconciled_is_exact_ordered_restriction
    (df_ref df_marks : List Row) (module_name assignment_name : String) :
    validate_reference_worksheet (df_ref.map refNormalizeRow)
        (df_marks.map marksNormalizeRow) module_name assignment_name =
      ((df_ref.map refNormalizeRow).filter
          (reconKeep (df_marks.map marksNormalizeRow))).map
        (augmentRow module_name assignment_name) ∧
    ((df_ref.map refNormalizeRow).filter
        (reconKeep (df_marks.map marksNormalizeRow))).Sublist
      (df_ref.map refNormalizeRow) ∧
    (∀ r, r ∈ (df_ref.map refNormalizeRow).filter
          (reconKeep (df_marks.map marksNormalizeRow)) ↔
        r ∈ df_ref.map refNormalizeRow ∧
          reconKeep (df_marks.map marksNormalizeRow) r = true) ∧
    (∀ r0 : Row, rowGet (refNormalizeRow r0) "Login" =
      some (strAccessorNormalize ((rowGet r0 "Email address").getD Value.nan))) ∧
    (∀ r0 : Row, rowGet (marksNormalizeRow r0) "Login" =
      some (strAccessorLower ((rowGet r0 "Login").getD Value.nan))) := by
  refine ⟨?_, List.filter_sublist _, ?_, ?_, ?_⟩
  · show (booleanIndex
        ((df_ref.map refNormalizeRow).map
          (reconKeep (df_marks.map marksNormalizeRow)))
        (df_ref.map refNormalizeRow)).map
        (augmentRow module_name assignment_name) = _
    rw [booleanIndex_map_eq_filter]
  · intro r
    rw [List.mem_filter]
  · intro r0
    exact rowGet_setCol_self _ _ _
  · intro r0
    exact rowGet_setCol_self _ _ _

/-! ## C8 -/

/-- C8 counterexample: `update_reference_file` always serializes with
`to_csv` (the `to_excel` call is commented out), so for a target path
with extension `.xlsx` the written format is CSV, not the
spreadsheet format the claim says the extension dictates. -/
theorem c8_counterexample :
    (update_reference_file c8marks [c8refRow] "Released"
        "updated_reference.xlsx").snd = FileFormat.csv ∧
    formatDictatedByExtension "updated_reference.xlsx" = FileFormat.excel ∧
    FileFormat.csv ≠ FileFormat.excel :=
  ⟨rfl, by decide, by decide⟩

/-- C8 (amended): `update_reference_file` sets every retained reference
row's `Marking workflow state` to the configured string, sets its
`Grade` to the marks-table grade found by Login lookup, and removes the
working columns `Login`, `Submission_ID` and `feedback_filename` before
writing — but it always serializes as delimited text (CSV), regardless
of the target path's extension. -/
theorem c8_update_reference_export (df_marks df_reference : List Row)
    (workflow_state output_file : String) :
    (update_reference_file df_marks df_reference workflow_state
        output_file).snd = FileFormat.csv ∧
    (update_reference_file df_marks df_reference workflow_state
        output_file).fst.length = df_reference.length ∧
    (∀ (i : Nat) (rI : Row), df_reference.get? i = some rI →
      ∃ rO, (update_reference_file df_marks df_reference workflow_state
          output_file).fst.get? i = some rO ∧
        rowGet rO "Marking workflow state" =
          some (Value.str workflow_state) ∧
        rowGet rO "Grade" =
          some (gradeLookup df_marks ((rowGet rI "Login").getD Value.nan)) ∧
        rowGet rO "Login" = none ∧
        rowGet rO "Submission_ID" = none ∧
        rowGet rO "feedback_filename" = none) := by
  refine ⟨rfl, by simp [update_reference_file], ?_⟩
  intro i rI hi
  simp only [update_reference_file, List.get?_map, hi, Option.map_some]
  refine ⟨_, rfl, ?_, ?_, ?_, ?_, ?_⟩
  · rw [rowGet_dropCols_not_mem _ _ _ (by decide),
      rowGet_setCol_ne _ _ _ _ (by decide), rowGet_setCol_self]
  · rw [rowGet_dropCols_not_mem _ _ _ (by decide), rowGet_setCol_self,
      rowGet_setCol_ne _ _ _ _ (by decide)]
  · exact rowGet_dropCols_mem _ _ _ (by decide)
  · exact rowGet_dropCols_mem _ _ _ (by decide)
  · exact rowGet_dropCols_mem _ _ _ (by decide)

/-- C8 witness: the amended theorem at a concrete one-row update. -/
theorem c8_witness :
    ∃ rO, (update_reference_file c8marks [c8refRow] "Released"
        "updated_reference.csv").fst.get? 0 = some rO ∧
      rowGet rO "Marking workflow state" = some (Value.str "Released") ∧
      rowGet rO "Grade" =
        some (gradeLookup c8marks ((rowGet c8refRow "Login").getD Value.nan)) ∧
      rowGet rO "Login" = none ∧
      rowGet rO "Submission_ID" = none ∧
      rowGet rO "feedback_filename" = none :=
  (c8_update_reference_export c8marks [c8refRow] "Released"
    "updated_reference.csv").2.2 0 c8refRow (by decide)

/-! ## C9 -/

/-- C9 counterexample: cleaning a folder that holds a `.docx` report
and a stale `.xlsx` file removes the `.xlsx` file and keeps the
`.docx` one; for a run whose expected output extension is `.docx`
(a Word template), this is the opposite of what the claim states. -/
theorem c9_counterexample :
    clean_output_folder ["report.docx", "stale.xlsx"] =
      (["stale.xlsx"], ["report.docx"]) ∧
    pyEndsWith ".docx" "report.docx" = true ∧
    pyEndsWith ".docx" "stale.xlsx" = false :=
  ⟨by decide, by decide, by decide⟩

/-- C9 (amended): `clean_output_folder` removes exactly the files whose
name ends with the literal `".xlsx"` — independently of the extension
of the documents the run actually generates — and leaves every other
file in the folder untouched. -/
theorem c9_clean_removes_exactly_xlsx (files : List String) :
    clean_output_folder files =
      (files.filter (fun f => pyEndsWith ".xlsx" f),
       files.filter (fun f => !(pyEndsWith ".xlsx" f))) := by
  induction files with
  | nil => rfl
  | cons f fs ih =>
    unfold clean_output_folder
    rw [ih]
    by_cases h : pyEndsWith ".xlsx" f = true
    · simp [List.filter_cons, h]
    · have h2 : pyEndsWith ".xlsx" f = false := by simpa using h
      simp [List.filter_cons, h2]

/-! ## C10 -/

theorem isWhitespace_eq_false_of_isDigit (c : Char) (h : c.isDigit = true) :
    c.isWhitespace = false := by
  have hval : 48 ≤ c.val ∧ c.val ≤ 57 := by
    simpa [Char.isDigit, Bool.and_eq_true] using h
  simp only [Char.isWhitespace]
  have h1 : c ≠ ' ' := by
    rintro rfl
    simp at h
  have h2 : c ≠ '\t' := by
    rintro rfl
    simp at h
  have h3 : c ≠ '\r' := by
    rintro rfl
    simp at h
  have h4 : c ≠ '\n' := by
    rintro rfl
    simp at h
  simp [h1, h2, h3, h4]

theorem dropWhile_eq_self_of_all_false (p : Char → Bool) (l : List Char)
    (h : ∀ c ∈ l, p c = false) : l.dropWhile p = l := by
  cases l with
  | nil => rfl
  | cons c rest =>
    rw [List.dropWhile_cons, h c (List.mem_cons_self _ _)]
    simp

theorem pyIntParse_digits (ds : List Char) (hne : ds ≠ [])
    (hdig : ds.all Char.isDigit = true) :
    pyIntParse ds = some (Int.ofNat (decimalValue ds)) := by
  have hnw : ∀ c ∈ ds, Char.isWhitespace c = false := by
    intro c hc
    exact isWhitespace_eq_false_of_isDigit c (List.all_eq_true.mp hdig c hc)
  have hnwr : ∀ c ∈ ds.reverse, Char.isWhitespace c = false := by
    intro c hc
    exact hnw c (List.mem_reverse.mp hc)
  unfold pyIntParse
  rw [dropWhile_eq_self_of_all_false _ _ hnw,
    dropWhile_eq_self_of_all_false _ _ hnwr, List.reverse_reverse]
  cases ds with
  | nil => exact absurd rfl hne
  | cons d tail =>
    have hd : d.isDigit = true := by
      simp only [List.all_cons, Bool.and_eq_true] at hdig
      exact hdig.1
    have hdplus : d ≠ '+' := by
      rintro rfl
      simp at hd
    have hdminus : d ≠ '-' := by
      rintro rfl
      simp at hd
    have hmatch : (match (d :: tail : List Char) with
        | '+' :: rest => rest
        | '-' :: rest => rest
        | rest => rest) = d :: tail := by
      split
      · rename_i heq
        rw [List.cons.injEq] at heq
        exact absurd heq.1 hdplus
      · rename_i heq
        rw [List.cons.injEq] at heq
        exact absurd heq.1 hdminus
      · rfl
    dsimp only
    rw [hmatch]
    rw [if_pos ⟨(by simp : (d :: tail : List Char) ≠ []), hdig⟩]
    rw [if_neg (by
      simp only [List.head?, Option.some_inj]
      exact hdminus)]

/-- C10 (confirmed): the cell-reference conversion is defined only for
single-letter columns: for one ASCII letter followed by a nonempty run
of decimal digits with value `n ≥ 1` it returns the 0-based pair
`(n − 1, position of the upper-cased letter in the alphabet)`, and for
every reference whose characters after the first do not parse as a
decimal integer — e.g. the two-letter column reference `"AA3"` — it
raises (`none`) instead of returning indices. -/
theorem c10_excel_cell_ref_single_letter_only :
    (∀ (c : Char) (ds : List Char),
      (c.isUpper = true ∨ c.isLower = true) → ds ≠ [] →
      ds.all Char.isDigit = true → 1 ≤ decimalValue ds →
      excel_cell_ref_to_indices (String.mk (c :: ds)) =
        some ((decimalValue ds : Int) - 1,
          Int.ofNat (upperChar c).toNat - 65)) ∧
    (∀ (c : Char) (rest : List Char), pyIntParse rest = none →
      excel_cell_ref_to_indices (String.mk (c :: rest)) = none) ∧
    excel_cell_ref_to_indices "AA3" = none := by
  refine ⟨?_, ?_, by decide⟩
  · intro c ds _ hne hdig _
    rw [show excel_cell_ref_to_indices (String.mk (c :: ds)) =
        (match pyIntParse ds with
         | some n => some (n - 1, Int.ofNat (upperChar c).toNat - 65)
         | none => none) from rfl]
    rw [pyIntParse_digits ds hne hdig]
    rfl
  · intro c rest hparse
    rw [show excel_cell_ref_to_indices (String.mk (c :: rest)) =
        (match pyIntParse rest with
         | some n => some (n - 1, Int.ofNat (upperChar c).toNat - 65)
         | none => none) from rfl]
    rw [hparse]

/-- C10 witness: the theorem applied at `"B3"` (returns row 2,
column 1) and at `"AA3"` (raises). -/
theorem c10_witness :
    excel_cell_ref_to_indices (String.mk ('B' :: ['3'])) =
      some ((decimalValue ['3'] : Int) - 1,
        Int.ofNat (upperChar 'B').toNat - 65) ∧
    excel_cell_ref_to_indices (String.mk ('A' :: ['A', '3'])) = none :=
  ⟨c10_excel_cell_ref_single_letter_only.1 'B' ['3'] (Or.inl (by decide))
      (by decide) (by decide) (by decide),
   c10_excel_cell_ref_single_letter_only.2.1 'A' ['A', '3'] (by decide)⟩

end SRG
